import Mathlib

/-!
Verification development for the technical-analysis core of the
coin-analyzer repository.  The Python functions in
`utils/general_utils.py` and `utils/volume_analysis.py` are shallowly
embedded as Lean functions over lists of exact rationals (machine floats
that can be NaN become `Option ℚ`, with the IEEE rule that every
comparison against NaN is false), except for the volume-anomaly detector,
whose standard deviation forces a real-valued embedding.
-/

/-- A pandas numeric column: one optional rational per row, `none` playing
the role of NaN. -/
abbrev Series := List (Option ℚ)

/-- Row access, `none` when the index is out of range (mirrors the fact
that the Python code never indexes out of range on these paths). -/
def sget (s : Series) (i : ℕ) : Option ℚ :=
  (s.get? i).getD none

/-- Comparison `a > b` under IEEE NaN semantics: false whenever either
side is missing. -/
def oGT (a b : Option ℚ) : Bool :=
  match a, b with
  | some x, some y => decide (y < x)
  | _, _ => false

/-- Comparison `a < b` under IEEE NaN semantics. -/
def oLT (a b : Option ℚ) : Bool :=
  match a, b with
  | some x, some y => decide (x < y)
  | _, _ => false

/-- The last `k` elements of a list (`DataFrame.tail(k)` / `iloc[-k:]`). -/
def takeRight (l : List α) (k : ℕ) : List α :=
  l.drop (l.length - k)

/-- Embeds the peak test of `find_peaks_valleys`: the sample at `i` is
strictly greater than its `w` neighbours on both sides. -/
def isPeakAt (s : Series) (w i : ℕ) : Bool :=
  ((List.range w).all fun j => oGT (sget s i) (sget s (i - (j + 1)))) &&
  ((List.range w).all fun j => oGT (sget s i) (sget s (i + (j + 1))))

/-- Embeds the valley test of `find_peaks_valleys`: the sample at `i` is
strictly less than its `w` neighbours on both sides. -/
def isValleyAt (s : Series) (w i : ℕ) : Bool :=
  ((List.range w).all fun j => oLT (sget s i) (sget s (i - (j + 1)))) &&
  ((List.range w).all fun j => oLT (sget s i) (sget s (i + (j + 1))))

/-- Embeds `find_peaks_valleys(series, window)` from
`utils/general_utils.py`: empty result below `2*window+1` samples;
otherwise every interior index (from `window` to `len-window`, exclusive)
is classified, the valley test being applied only when the peak test
failed (the `continue` in the source). -/
def findPeaksValleys (s : Series) (w : ℕ) : List ℕ × List ℕ :=
  if s.length < 2 * w + 1 then ([], []) else
  let idxs := (List.range (s.length - w)).filter (fun i => w ≤ i)
  (idxs.filter (isPeakAt s w),
   idxs.filter (fun i => !isPeakAt s w i && isValleyAt s w i))

/-- Result of `calculate_rsi_divergence` (the Python function returns the
corresponding strings; the three failure states are distinct values). -/
inductive DivergenceLabel where
  | Positive
  | Negative
  | NoDivergence
  | DataMissing
  | NotEnoughData
  | SeriesInvalid
deriving DecidableEq, Repr

/-- The two columns of the klines DataFrame that
`calculate_rsi_divergence` reads; a `none` column models the column being
absent from `df.columns`. -/
structure KlinesDF where
  close? : Option Series
  rsi? : Option Series

/-- Minimal row count demanded by `calculate_rsi_divergence`:
`divergence_window + 2 * peak_valley_window * lookback_pivots`. -/
def divMinNeeded (lp w dw : ℕ) : ℕ :=
  dw + 2 * w * lp

/-- The trailing analysis slice `df.tail(min_data_needed + 20)`. -/
def divSlice (s : Series) (lp w dw : ℕ) : Series :=
  takeRight s (divMinNeeded lp w dw + 20)

/-- Nearest RSI pivot at or before a price pivot: the first index of the
reversed pivot list that is `≤ p` (the inner `for r_idx in reversed(...)`
loop of the source). -/
def rsiMatchBefore (rpivots : List ℕ) (p : ℕ) : Option ℕ :=
  rpivots.reverse.find? (fun r => decide (r ≤ p))

/-- Nearest RSI pivot at or before a price pivot that is also strictly
before an already-matched later pivot (the second inner loop of the
source, with its extra `r_idx < r_peak_idx2` condition). -/
def rsiMatchBeforeLt (rpivots : List ℕ) (p bound : ℕ) : Option ℕ :=
  rpivots.reverse.find? (fun r => decide (r ≤ p) && decide (r < bound))

/-- One iteration of the bearish scan of `calculate_rsi_divergence` at
price-peak index `i`: recency filter, nearest-before RSI matching (the
earlier match strictly before the later one), then the tolerance
pre-filter and the strict higher-high / lower-high comparison. -/
def negPairQualifies (price rsiS : Series) (ppeaks rpeaks : List ℕ)
    (alen dw lp : ℕ) (a : ℚ) (i : ℕ) : Bool :=
  match ppeaks.get? i, ppeaks.get? (i - (lp - 1)) with
  | some p2, some p1 =>
    if (alen - 1) - p2 > dw then false else
    match rsiMatchBefore rpeaks p2 with
    | none => false
    | some r2 =>
      match rsiMatchBeforeLt rpeaks p1 r2 with
      | none => false
      | some r1 =>
        if p1 < p2 && r1 < r2 then
          match sget price p1, sget price p2, sget rsiS r1, sget rsiS r2 with
          | some ph1, some ph2, some rh1, some rh2 =>
            decide (ph1 * (1 - a) < ph2) && decide (rh2 < rh1 * (1 + a)) &&
            decide (ph1 < ph2) && decide (rh2 < rh1)
          | _, _, _, _ => false
        else false
  | _, _ => false

/-- One iteration of the bullish scan at price-valley index `i`: the
mirror of `negPairQualifies` over valleys (lower low in price, higher low
in RSI). -/
def posPairQualifies (price rsiS : Series) (pvalleys rvalleys : List ℕ)
    (alen dw lp : ℕ) (a : ℚ) (i : ℕ) : Bool :=
  match pvalleys.get? i, pvalleys.get? (i - (lp - 1)) with
  | some p2, some p1 =>
    if (alen - 1) - p2 > dw then false else
    match rsiMatchBefore rvalleys p2 with
    | none => false
    | some r2 =>
      match rsiMatchBeforeLt rvalleys p1 r2 with
      | none => false
      | some r1 =>
        if p1 < p2 && r1 < r2 then
          match sget price p1, sget price p2, sget rsiS r1, sget rsiS r2 with
          | some pl1, some pl2, some rl1, some rl2 =>
            decide (pl2 < pl1 * (1 + a)) && decide (rl1 * (1 - a) < rl2) &&
            decide (pl2 < pl1) && decide (rl1 < rl2)
          | _, _, _, _ => false
        else false
  | _, _ => false

/-- Indices visited by the pivot-pair scans: `i` from `len-1` down to
`lookback_pivots - 1` (the embedding covers `lookback_pivots ≥ 1`; the
repository only ever calls with the default `2`). -/
def scanIdxs (lp plen : ℕ) : List ℕ :=
  ((List.range plen).filter (fun i => lp - 1 ≤ i)).reverse

/-- Whether the bearish scan of `calculate_rsi_divergence` fires on the
analysis slices of the two columns. -/
def divNegHit (close rsiC : Series) (lp w dw : ℕ) (a : ℚ) : Bool :=
  let price := divSlice close lp w dw
  let rsiS := divSlice rsiC lp w dw
  let ppk := (findPeaksValleys price w).1
  let rpk := (findPeaksValleys rsiS w).1
  decide (lp ≤ ppk.length) && decide (lp ≤ rpk.length) &&
  (scanIdxs lp ppk.length).any
    (fun i => negPairQualifies price rsiS ppk rpk price.length dw lp a i)

/-- Whether the bullish scan of `calculate_rsi_divergence` fires. -/
def divPosHit (close rsiC : Series) (lp w dw : ℕ) (a : ℚ) : Bool :=
  let price := divSlice close lp w dw
  let rsiS := divSlice rsiC lp w dw
  let pvl := (findPeaksValleys price w).2
  let rvl := (findPeaksValleys rsiS w).2
  decide (lp ≤ pvl.length) && decide (lp ≤ rvl.length) &&
  (scanIdxs lp pvl.length).any
    (fun i => posPairQualifies price rsiS pvl rvl price.length dw lp a i)

/-- Embeds `calculate_rsi_divergence(df, rsi_col, lookback_pivots,
peak_valley_window, divergence_window, a)`: column guard, length guard,
all-NaN guard on the trailing slice, then the bearish scan followed by
the bullish scan, bearish hits winning. -/
def calcRsiDivergence (df : KlinesDF) (lp w dw : ℕ) (a : ℚ) :
    DivergenceLabel :=
  match df.rsi?, df.close? with
  | some rsiC, some close =>
    if close.length < divMinNeeded lp w dw then .NotEnoughData else
    let price := divSlice close lp w dw
    let rsiS := divSlice rsiC lp w dw
    if rsiS.all (·.isNone) || price.all (·.isNone) then .SeriesInvalid else
    if divNegHit close rsiC lp w dw a then .Negative else
    if divPosHit close rsiC lp w dw a then .Positive else
    .NoDivergence
  | _, _ => .DataMissing

/-- A flat series of length `n` at level `base` with pointwise
replacements, used to build concrete test inputs. -/
def mkSeries (n : ℕ) (base : ℚ) (bumps : List (ℕ × ℚ)) : Series :=
  (List.range n).map
    (fun i => some (((bumps.find? (fun b => b.1 = i)).map (·.2)).getD base))

/-- Follows the claim's description of the bearish test (for comparison
with the implementation): each of the two price peaks is matched to the
closest RSI peak at or before it, with no requirement that the two
matches be distinct, and the matched values are compared strictly. -/
def specNegPairQualifies (price rsiS : Series) (ppeaks rpeaks : List ℕ)
    (alen dw lp : ℕ) (i : ℕ) : Bool :=
  match ppeaks.get? i, ppeaks.get? (i - (lp - 1)) with
  | some p2, some p1 =>
    if (alen - 1) - p2 > dw then false else
    match rsiMatchBefore rpeaks p2, rsiMatchBefore rpeaks p1 with
    | some r2, some r1 =>
      match sget price p1, sget price p2, sget rsiS r1, sget rsiS r2 with
      | some ph1, some ph2, some rh1, some rh2 =>
        decide (ph1 < ph2) && decide (rh2 < rh1)
      | _, _, _, _ => false
    | _, _ => false
  | _, _ => false

/-- Bearish scan with the tolerance pre-filter removed, keeping only the
strict comparison (the simplification the spec says an implementer may
make). -/
def negPairQualifiesSimple (price rsiS : Series) (ppeaks rpeaks : List ℕ)
    (alen dw lp : ℕ) (i : ℕ) : Bool :=
  match ppeaks.get? i, ppeaks.get? (i - (lp - 1)) with
  | some p2, some p1 =>
    if (alen - 1) - p2 > dw then false else
    match rsiMatchBefore rpeaks p2 with
    | none => false
    | some r2 =>
      match rsiMatchBeforeLt rpeaks p1 r2 with
      | none => false
      | some r1 =>
        if p1 < p2 && r1 < r2 then
          match sget price p1, sget price p2, sget rsiS r1, sget rsiS r2 with
          | some ph1, some ph2, some rh1, some rh2 =>
            decide (ph1 < ph2) && decide (rh2 < rh1)
          | _, _, _, _ => false
        else false
  | _, _ => false

/-- Bullish scan with the tolerance pre-filter removed. -/
def posPairQualifiesSimple (price rsiS : Series) (pvalleys rvalleys : List ℕ)
    (alen dw lp : ℕ) (i : ℕ) : Bool :=
  match pvalleys.get? i, pvalleys.get? (i - (lp - 1)) with
  | some p2, some p1 =>
    if (alen - 1) - p2 > dw then false else
    match rsiMatchBefore rvalleys p2 with
    | none => false
    | some r2 =>
      match rsiMatchBeforeLt rvalleys p1 r2 with
      | none => false
      | some r1 =>
        if p1 < p2 && r1 < r2 then
          match sget price p1, sget price p2, sget rsiS r1, sget rsiS r2 with
          | some pl1, some pl2, some rl1, some rl2 =>
            decide (pl2 < pl1) && decide (rl1 < rl2)
          | _, _, _, _ => false
        else false
  | _, _ => false

/-- Bearish hit of the simplified (pre-filter-free) analyzer. -/
def divNegHitSimple (close rsiC : Series) (lp w dw : ℕ) : Bool :=
  let price := divSlice close lp w dw
  let rsiS := divSlice rsiC lp w dw
  let ppk := (findPeaksValleys price w).1
  let rpk := (findPeaksValleys rsiS w).1
  decide (lp ≤ ppk.length) && decide (lp ≤ rpk.length) &&
  (scanIdxs lp ppk.length).any
    (fun i => negPairQualifiesSimple price rsiS ppk rpk price.length dw lp i)

/-- Bullish hit of the simplified analyzer. -/
def divPosHitSimple (close rsiC : Series) (lp w dw : ℕ) : Bool :=
  let price := divSlice close lp w dw
  let rsiS := divSlice rsiC lp w dw
  let pvl := (findPeaksValleys price w).2
  let rvl := (findPeaksValleys rsiS w).2
  decide (lp ≤ pvl.length) && decide (lp ≤ rvl.length) &&
  (scanIdxs lp pvl.length).any
    (fun i => posPairQualifiesSimple price rsiS pvl rvl price.length dw lp i)

/-- The divergence analyzer with the tolerance pre-filter omitted, the
variant the spec declares extensionally interchangeable on realistic
(positive-valued) inputs. -/
def calcRsiDivergenceSimple (df : KlinesDF) (lp w dw : ℕ) :
    DivergenceLabel :=
  match df.rsi?, df.close? with
  | some rsiC, some close =>
    if close.length < divMinNeeded lp w dw then .NotEnoughData else
    let price := divSlice close lp w dw
    let rsiS := divSlice rsiC lp w dw
    if rsiS.all (·.isNone) || price.all (·.isNone) then .SeriesInvalid else
    if divNegHitSimple close rsiC lp w dw then .Negative else
    if divPosHitSimple close rsiC lp w dw then .Positive else
    .NoDivergence
  | _, _ => .DataMissing

/-- NaN-skipping maximum of a column (`pandas.Series.max`): `none` only
when no value is present. -/
def omaxS (s : Series) : Option ℚ :=
  (s.filterMap id).foldl
    (fun acc x => match acc with
      | none => some x
      | some m => some (max m x)) none

/-- NaN-skipping minimum of a column (`pandas.Series.min`). -/
def ominS (s : Series) : Option ℚ :=
  (s.filterMap id).foldl
    (fun acc x => match acc with
      | none => some x
      | some m => some (min m x)) none

/-- Result of `calculate_fibonacci_levels`: the reported high and low and
the labelled level map (`None` when not computable). -/
structure FibResult where
  fibHigh : Option ℚ
  fibLow : Option ℚ
  fibLevels : Option (List (String × ℚ))
deriving DecidableEq, Repr

/-- The `high` and `low` columns of the DataFrame passed to
`calculate_fibonacci_levels`. -/
structure HLSeries where
  high : Series
  low : Series

/-- Embeds `calculate_fibonacci_levels(df, lookback_period)`: all-`None`
below `lookback_period` rows; high/low from the trailing window; levels
only when both are defined and distinct, at the exact ratios of the
source. -/
def calculateFibonacciLevels (df : HLSeries) (lookback : ℕ) : FibResult :=
  if df.high.length < lookback then ⟨none, none, none⟩ else
  let hi? := omaxS (takeRight df.high lookback)
  let lo? := ominS (takeRight df.low lookback)
  match hi?, lo? with
  | some h, some l =>
    if h = l then ⟨some h, some l, none⟩ else
    let d := h - l
    ⟨some h, some l, some
      [("0.0%", h),
       ("23.6%", h - d * (236 / 1000)),
       ("38.2%", h - d * (382 / 1000)),
       ("50.0%", h - d * (1 / 2)),
       ("61.8%", h - d * (618 / 1000)),
       ("78.6%", h - d * (786 / 1000)),
       ("100.0%", l)]⟩
  | _, _ => ⟨hi?, lo?, none⟩

/-- Mean of a rational list (`Series.mean` on NaN-free data). -/
def listMeanQ (l : List ℚ) : ℚ :=
  l.sum / l.length

/-- Trend direction returned by `calculate_volume_trend`. -/
inductive TrendLabel where
  | increasing
  | decreasing
  | flat
  | insufficientData
deriving DecidableEq, Repr

/-- Embeds `calculate_volume_trend(df, period)` from
`utils/volume_analysis.py` (volumes are NaN-free exchange data, so the
column is a plain rational list): percent change from the first to the
last sample of the trailing window, with the zero start replaced by
epsilon, classified with a flat band of 5%.  The least-squares slope the
source computes is dead code (it never reaches the returned value) and is
not modelled. -/
def calculateVolumeTrend (vols : List ℚ) (period : ℕ) :
    TrendLabel × ℚ :=
  if vols.length < period then (.insufficientData, 0) else
  let recent := takeRight vols period
  let startV := recent.headD 0
  let startV := if startV = 0 then 1 / 1000000 else startV
  let endV := recent.getLastD 0
  let pct := (endV - startV) / startV * 100
  if |pct| < 5 then (.flat, pct)
  else if 0 < pct then (.increasing, pct)
  else (.decreasing, pct)

/-- Per-timeframe record built by `compare_volume_across_timeframes`; a
`none` in `normalizedVolume` covers both the explicit `None` and the key
being absent when the normalization pass is skipped. -/
structure TFEntry where
  volumeTrend : TrendLabel
  trendPctChange : Option ℚ
  volumeMa20 : Option ℚ
  currentVolume : Option ℚ
  currentVsMa : Option ℚ
  normalizedVolume : Option ℚ
deriving DecidableEq, Repr

/-- The per-timeframe metrics of `compare_volume_across_timeframes`
before the normalization pass. -/
def mkTFEntry (vols : List ℚ) : TFEntry :=
  if vols.length < 20 then
    ⟨.insufficientData, none, none, none, none, none⟩
  else
    let ma := listMeanQ (takeRight vols 20)
    let cur := vols.getLastD 0
    let tp := calculateVolumeTrend vols 10
    ⟨tp.1, some tp.2, some ma, some cur,
     if 0 < ma then some (cur / ma * 100) else none, none⟩

/-- The normalization pass applied to one entry given the baseline 20-MA
`b` of the longest timeframe. -/
def applyNorm (b : ℚ) (e : TFEntry) : TFEntry :=
  { e with normalizedVolume :=
      match e.volumeMa20 with
      | some m => if 0 < b then some (m / b) else none
      | none => none }

/-- Embeds `compare_volume_across_timeframes(timeframe_dfs, normalize)`:
a per-timeframe record for every timeframe (insufficient ones included),
then, when normalizing and more than one timeframe is present and the
last-listed timeframe's 20-period MA exists, a `normalized_volume` for
every timeframe.  Timeframe labels are assumed distinct, as in the
Python dict. -/
def compareVolumeAcrossTimeframes (tfs : List (String × List ℚ))
    (normalize : Bool) : List (String × TFEntry) :=
  let base := tfs.map (fun p => (p.1, mkTFEntry p.2))
  if normalize && decide (1 < base.length) then
    match base.getLast? with
    | some (_, eb) =>
      match eb.volumeMa20 with
      | some b => base.map (fun p => (p.1, applyNorm b p.2))
      | none => base
    | none => base
  else base

/-- Indicator keys configured in `core_logic/constants.py`. -/
inductive IndicatorKey where
  | rsi
  | macd
  | smaShort
  | smaLong
  | emaShort
  | emaLong
  | atr
  | bbands
deriving DecidableEq, Repr

/-- Period constants of `core_logic/constants.py`. -/
def RSI_PERIOD : ℕ := 14

/-- MACD slow period (`MACD_SLOW_PERIOD`). -/
def MACD_SLOW_PERIOD : ℕ := 50

/-- Short SMA period (`SMA_SHORT_PERIOD`). -/
def SMA_SHORT_PERIOD : ℕ := 100

/-- Long SMA period (`SMA_LONG_PERIOD`). -/
def SMA_LONG_PERIOD : ℕ := 200

/-- Short EMA period (`EMA_SHORT_PERIOD`). -/
def EMA_SHORT_PERIOD : ℕ := 13

/-- Long EMA period (`EMA_LONG_PERIOD`). -/
def EMA_LONG_PERIOD : ℕ := 50

/-- ATR period (`ATR_PERIOD`). -/
def ATR_PERIOD : ℕ := 14

/-- Bollinger length (`BBANDS_LENGTH`). -/
def BBANDS_LENGTH : ℕ := 20

/-- History each configured indicator needs, per the constants module. -/
def requiredPeriod : IndicatorKey → ℕ
  | .rsi => RSI_PERIOD
  | .macd => MACD_SLOW_PERIOD
  | .smaShort => SMA_SHORT_PERIOD
  | .smaLong => SMA_LONG_PERIOD
  | .emaShort => EMA_SHORT_PERIOD
  | .emaLong => EMA_LONG_PERIOD
  | .atr => ATR_PERIOD
  | .bbands => BBANDS_LENGTH

/-- The gate of `calculate_technical_indicators`:
`max(RSI_PERIOD, MACD_SLOW_PERIOD, SMA_LONG_PERIOD, EMA_LONG_PERIOD,
ATR_PERIOD, BBANDS_LENGTH, 1)`. -/
def minLenForIndicators : ℕ :=
  max (max (max (max (max (max RSI_PERIOD MACD_SLOW_PERIOD)
    SMA_LONG_PERIOD) EMA_LONG_PERIOD) ATR_PERIOD) BBANDS_LENGTH) 1

/-- Whether `extract_latest_indicators` sees a non-`None` latest value
for an indicator after `calculate_technical_indicators` ran on a series
of `n` rows.  The early `return df` of the source (no indicator column is
created when `n < minLenForIndicators`) is taken from
`utils/general_utils.py`.  Modelled from the spec: once the gate is
passed the third-party library fills the column, and the latest value is
non-`None` exactly when `n` reaches the indicator's own period ("output
is `None` for `len(series) < P` and non-`None` for `len(series) ≥ P`"). -/
def latestIndicatorIsSome (n : ℕ) (k : IndicatorKey) : Bool :=
  if n < minLenForIndicators then false
  else decide (requiredPeriod k ≤ n)

/-- One raw kline row as `preprocess_klines_df` receives it: the
`open_time`/`close_time` stamps and the five numeric columns, each
numeric field carrying `some value` when `pd.to_numeric` can parse it and
`none` when parsing would raise (the string-to-float parse itself is
abstracted). -/
structure RawKline where
  openTime : ℤ
  closeTime : ℤ
  openF : Option ℚ
  highF : Option ℚ
  lowF : Option ℚ
  closeF : Option ℚ
  volumeF : Option ℚ
deriving DecidableEq, Repr

/-- A parsed candle row of the preprocessed DataFrame. -/
structure PKline where
  openTime : ℤ
  closeTime : ℤ
  openV : ℚ
  highV : ℚ
  lowV : ℚ
  closeV : ℚ
  volumeV : ℚ
deriving DecidableEq, Repr

/-- Whether every numeric field of a raw row parses. -/
def rawParses (r : RawKline) : Bool :=
  r.openF.isSome && r.highF.isSome && r.lowF.isSome &&
  r.closeF.isSome && r.volumeF.isSome

/-- The parsed form of a fully-parsing raw row. -/
def rawToP (r : RawKline) : PKline :=
  ⟨r.openTime, r.closeTime, r.openF.getD 0, r.highF.getD 0,
   r.lowF.getD 0, r.closeF.getD 0, r.volumeF.getD 0⟩

/-- Embeds `preprocess_klines_df(klines)`: `pd.to_numeric` (with its
default `errors` mode) raises on the first unparseable value, so one bad
row fails the whole conversion; otherwise the rows come back converted,
in their original order — the function neither drops rows nor sorts. -/
def preprocessKlines (rows : List RawKline) : Except Unit (List PKline) :=
  if rows.all rawParses then .ok (rows.map rawToP) else .error ()

/-- Anomaly classification of `detect_volume_anomalies`. -/
inductive AnomalyKind where
  | spike
  | drop
  | noAnomaly
deriving DecidableEq, Repr

/-- The fields of the dictionary `detect_volume_anomalies` returns on the
sufficient-data path. -/
structure VolumeAnomalyResult where
  anomalyDetected : Bool
  anomalyType : AnomalyKind
  currentVolume : ℝ
  baselineMean : ℝ
  baselineStd : ℝ
  zScore : ℝ
  deviationPercent : ℝ
  recentAnomalies : ℕ

/-- Mean of a real list. -/
noncomputable def listMeanR (l : List ℝ) : ℝ :=
  l.sum / l.length

/-- Sample variance with one delta degree of freedom, as
`pandas.Series.std` squares it.  (A baseline of fewer than two samples
gives NaN in pandas; the embedding is used with baselines of length at
least two.) -/
noncomputable def sampleVarR (l : List ℝ) : ℝ :=
  ((l.map (fun x => (x - listMeanR l) ^ 2)).sum) / ((l.length : ℝ) - 1)

/-- The baseline rows `df.iloc[-(lookback_period+1):-1]`: the trailing
`lookback` rows once the most recent row is excluded. -/
def baselineWindow (vols : List ℝ) (lookback : ℕ) : List ℝ :=
  (takeRight vols (lookback + 1)).dropLast

/-- The most recent volume sample (`df[volume_col].iloc[-1]`). -/
def volCurrent (vols : List ℝ) : ℝ :=
  vols.getLastD 0

/-- The local `baseline_mean` of `detect_volume_anomalies`. -/
noncomputable def volBaselineMean (vols : List ℝ) (lookback : ℕ) : ℝ :=
  listMeanR (baselineWindow vols lookback)

open Classical in
/-- The local `baseline_std` of `detect_volume_anomalies`:
`pandas.Series.std` of the baseline (ddof 1), with an exact zero replaced
by epsilon to prevent division by zero. -/
noncomputable def volBaselineStd (vols : List ℝ) (lookback : ℕ) : ℝ :=
  let s := Real.sqrt (sampleVarR (baselineWindow vols lookback))
  if s = 0 then 1 / 1000000 else s

/-- The local `z_score` of `detect_volume_anomalies`. -/
noncomputable def volZScore (vols : List ℝ) (lookback : ℕ) : ℝ :=
  (volCurrent vols - volBaselineMean vols lookback) /
    volBaselineStd vols lookback

open Classical in
/-- Embeds `detect_volume_anomalies(df, lookback_period, threshold)` on
the volume column (NaN-free exchange data): `none` models the all-`None`
dictionary of the insufficient-data path; otherwise the baseline mean and
standard deviation exclude the current candle, and the anomaly kind is
derived from the sign of the z-score only when an anomaly was
detected.  (A one-sample baseline, whose pandas deviation would be NaN,
is outside the embedding; lookbacks of at least 2 avoid it.) -/
noncomputable def detectVolumeAnomalies (vols : List ℝ) (lookback : ℕ)
    (threshold : ℝ) : Option VolumeAnomalyResult :=
  if vols.length < lookback then none else
  let z := volZScore vols lookback
  let detected : Bool := if |z| > threshold then true else false
  let kind : AnomalyKind :=
    if detected then (if 0 < z then .spike else .drop) else .noAnomaly
  some ⟨detected, kind, volCurrent vols, volBaselineMean vols lookback,
        volBaselineStd vols lookback, z,
        (volCurrent vols / volBaselineMean vols lookback - 1) * 100,
        ((takeRight vols 5).filter (fun v =>
          decide (|(v - volBaselineMean vols lookback) /
            volBaselineStd vols lookback| > threshold))).length⟩


/-- Close column on which the nearest-before matches of the two price
peaks coincide: peaks of value 100 and 110 at indices 12 and 30. -/
def sharedMatchClose : Series := mkSeries 42 10 [(12, 100), (30, 110)]

/-- RSI column with peaks 70 and 60 at indices 4 and 10, both at or
before the first price peak of `sharedMatchClose`. -/
def sharedMatchRsi : Series := mkSeries 42 50 [(4, 70), (10, 60)]

/-- Synthetic bearish case of the spec: price peaks 100 then 110, RSI
peaks 70 then 60 each one candle before its price peak. -/
def synNegClose : Series := mkSeries 42 10 [(12, 100), (30, 110)]

/-- RSI column of the synthetic bearish case. -/
def synNegRsi : Series := mkSeries 42 50 [(11, 70), (29, 60)]

/-- Synthetic bullish mirror: price valleys 50 then 40. -/
def synPosClose : Series := mkSeries 42 100 [(12, 50), (30, 40)]

/-- RSI column of the synthetic bullish case: valleys 30 then 35. -/
def synPosRsi : Series := mkSeries 42 50 [(11, 30), (29, 35)]

/-- Close column carrying both a qualifying bearish peak pair (100→110)
and a qualifying bullish valley pair (50→40), the valley pair being the
more recent. -/
def dualSigClose : Series :=
  mkSeries 50 70 [(12, 100), (18, 50), (26, 110), (34, 40)]

/-- RSI column matching `dualSigClose`: falling peaks 70→60 and rising
valleys 30→35. -/
def dualSigRsi : Series :=
  mkSeries 50 50 [(11, 70), (17, 30), (25, 60), (33, 35)]

/-- A 42-row all-NaN column. -/
def allNone42 : Series := List.replicate 42 none

/-- A short (10-row) constant column. -/
def shortTen : Series := mkSeries 10 1 []

/-- The claim's bearish condition assembled over the same scan indices as
the implementation, with its matching rule. -/
def specNegHit (close rsiC : Series) (lp w dw : ℕ) : Bool :=
  let price := divSlice close lp w dw
  let rsiS := divSlice rsiC lp w dw
  let ppk := (findPeaksValleys price w).1
  let rpk := (findPeaksValleys rsiS w).1
  (scanIdxs lp ppk.length).any
    (fun i => specNegPairQualifies price rsiS ppk rpk price.length dw lp i)

/-- Two-candle peak/valley demo series for the extrema detector. -/
def twoSamples : Series := [some 1, some 2]

/-- Three-candle series with a single interior peak. -/
def thirdPeak : Series := [some 1, some 3, some 1]

/-- A raw kline row with all numeric fields parseable, stamped `t`. -/
def rawRowAt (t : ℤ) : RawKline :=
  ⟨t, t + 1, some 1, some 2, some 1, some 1, some 5⟩

/-- A raw kline row whose `high` fails numeric parsing. -/
def badRawRow : RawKline := ⟨3, 4, some 1, none, some 1, some 1, some 5⟩

/-- One-row high/low frame (fewer rows than any realistic lookback). -/
def hlShort : HLSeries := ⟨[some 5], [some 4]⟩

/-- Two-row high/low frame with range 10 down to 2. -/
def hlDemo : HLSeries := ⟨[some 10, some 8], [some 2, some 4]⟩

/-- Volume column whose current candle sits one (floored) standard
deviation above the baseline: z = 1, below the threshold. -/
noncomputable def nearVols : List ℝ := [1, 1, 1, 1 + 1 / 1000000]

/-- Volume column with baseline mean 2, standard deviation 1, and a
current candle at mean + 5·std. -/
noncomputable def spikeVols : List ℝ := [0, 4, 2, 2, 2, 2, 2, 2, 2, 7]

/-- Volume column with baseline mean 3, standard deviation 1, and a
current candle at mean − 5·std clamped to zero. -/
noncomputable def dropVols : List ℝ := [1, 5, 3, 3, 3, 3, 3, 3, 3, 0]

/-- Twenty candles of unit volume. -/
def unitVols : List ℚ := List.replicate 20 1

/-- Two timeframes with identical volume profiles. -/
def demoTfs : List (String × List ℚ) :=
  [("1h", unitVols), ("4h", unitVols)]

/-! ## Helper lemmas -/

/-- Pointwise-equal predicates give equal `List.any`. -/
theorem list_any_congr {l : List α} {f g : α → Bool}
    (h : ∀ x ∈ l, f x = g x) : l.any f = l.any g := by
  induction l with
  | nil => rfl
  | cons x xs ih =>
    simp only [List.any_cons]
    rw [h x (List.mem_cons_self x xs), ih (fun y hy => h y (List.mem_cons_of_mem x hy))]

/-- A defined sample of a series is one of its members. -/
theorem sget_mem {s : Series} {i : ℕ} {v : ℚ} (h : sget s i = some v) :
    some v ∈ s := by
  unfold sget at h
  cases hg : s.get? i with
  | none => rw [hg] at h; exact absurd h (by simp)
  | some x => rw [hg] at h; simp at h; subst h; exact List.get?_mem hg

/-- The analysis slice only contains samples of the original column. -/
theorem mem_divSlice {s : Series} {lp w dw : ℕ} {x : Option ℚ}
    (h : x ∈ divSlice s lp w dw) : x ∈ s := by
  unfold divSlice takeRight at h
  exact List.drop_subset _ s h

/-! ## C4: the extrema detector -/

/-- C4 counterexample: with `window = 0` the source classifies every
index as a peak (the vacuous peak test fires first and `continue`s), so
the valley side is NOT the symmetric mirror the claim states: index 0 of
`[1, 2]` satisfies the symmetric valley condition (vacuously) yet is
absent from the valley list. -/
theorem find_extrema_window_zero_asymmetry :
    (findPeaksValleys twoSamples 0).2 = [] ∧
    isValleyAt twoSamples 0 0 = true ∧
    (0 : ℕ) ≤ 0 ∧ 0 < twoSamples.length - 0 ∧
    2 * 0 + 1 ≤ twoSamples.length := by decide

/-- C4 (amended): for the peak side the claim's characterization is
exact; a valley additionally requires the peak test to fail (equivalent
to the symmetric definition whenever `window ≥ 1`); below `2*window+1`
samples both lists are empty (in particular at length `2*window`), and at
length `2*window+1` at most one extremum, at the single interior index,
is produced. -/
theorem find_extrema_characterization (s : Series) (w i : ℕ) :
    (i ∈ (findPeaksValleys s w).1 ↔
      (2 * w + 1 ≤ s.length ∧ w ≤ i ∧ i < s.length - w ∧
       ∀ j < w, oGT (sget s i) (sget s (i - (j + 1))) = true ∧
                oGT (sget s i) (sget s (i + (j + 1))) = true)) ∧
    (i ∈ (findPeaksValleys s w).2 ↔
      (2 * w + 1 ≤ s.length ∧ w ≤ i ∧ i < s.length - w ∧
       isPeakAt s w i = false ∧
       ∀ j < w, oLT (sget s i) (sget s (i - (j + 1))) = true ∧
                oLT (sget s i) (sget s (i + (j + 1))) = true)) ∧
    (s.length < 2 * w + 1 → findPeaksValleys s w = ([], [])) ∧
    (s.length = 2 * w → findPeaksValleys s w = ([], [])) ∧
    (s.length = 2 * w + 1 →
      ((findPeaksValleys s w).1 ++ (findPeaksValleys s w).2).length ≤ 1 ∧
      ∀ j ∈ (findPeaksValleys s w).1 ++ (findPeaksValleys s w).2, j = w) := by
  refine ⟨?_, ?_, ?_, ?_, ?_⟩
  · unfold findPeaksValleys
    split
    · next h =>
      simp only [List.not_mem_nil, false_iff]
      rintro ⟨h1, -⟩; omega
    · next h =>
      simp only [List.mem_filter, List.mem_range, decide_eq_true_eq,
        isPeakAt, Bool.and_eq_true, List.all_eq_true]
      constructor
      · rintro ⟨⟨hir, hwi⟩, hl, hr⟩
        refine ⟨by omega, hwi, hir, fun j hj => ⟨?_, ?_⟩⟩
        · exact hl j hj
        · exact hr j hj
      · rintro ⟨-, hwi, hir, hall⟩
        exact ⟨⟨hir, hwi⟩,
          fun j hj => (hall j hj).1,
          fun j hj => (hall j hj).2⟩
  · unfold findPeaksValleys
    split
    · next h =>
      simp only [List.not_mem_nil, false_iff]
      rintro ⟨h1, -⟩; omega
    · next h =>
      simp only [List.mem_filter, List.mem_range, decide_eq_true_eq,
        Bool.and_eq_true, Bool.not_eq_true', isValleyAt, List.all_eq_true]
      constructor
      · rintro ⟨⟨hir, hwi⟩, hpk, hl, hr⟩
        refine ⟨by omega, hwi, hir, hpk, fun j hj => ⟨?_, ?_⟩⟩
        · exact hl j hj
        · exact hr j hj
      · rintro ⟨-, hwi, hir, hpk, hall⟩
        exact ⟨⟨hir, hwi⟩, hpk,
          fun j hj => (hall j hj).1,
          fun j hj => (hall j hj).2⟩
  · intro h
    unfold findPeaksValleys
    rw [if_pos h]
  · intro h
    unfold findPeaksValleys
    rw [if_pos (by omega)]
  · intro h
    have hidx : (List.range (s.length - w)).filter (fun i => w ≤ i) = [w] := by
      have : s.length - w = w + 1 := by omega
      rw [this, List.range_succ, List.filter_append]
      have h1 : (List.range w).filter (fun i => w ≤ i) = [] := by
        apply List.filter_eq_nil_iff.mpr
        intro a ha
        simp only [decide_eq_true_eq]
        exact fun hc => absurd (List.mem_range.mp ha) (by omega)
      have h2 : [w].filter (fun i => w ≤ i) = [w] := by simp
      rw [h1, h2, List.nil_append]
    unfold findPeaksValleys
    rw [if_neg (by omega), hidx]
    constructor
    · by_cases hp : isPeakAt s w w
      · simp [List.filter_singleton, hp]
      · simp only [List.filter_singleton]
        by_cases hv : isValleyAt s w w <;> simp [hp, hv]
    · intro j hj
      rcases List.mem_append.mp hj with hj1 | hj2
      · rcases List.mem_filter.mp hj1 with ⟨hm, -⟩
        simpa using hm
      · rcases List.mem_filter.mp hj2 with ⟨hm, -⟩
        simpa using hm

/-- C4 witness: the single interior sample of `[1, 3, 1]` is a peak, by
the characterization applied at `window = 1`, and a two-sample series
with `window = 1` yields empty lists. -/
theorem find_extrema_characterization_witness :
    1 ∈ (findPeaksValleys thirdPeak 1).1 ∧
    findPeaksValleys twoSamples 1 = ([], []) := by
  constructor
  · exact (find_extrema_characterization thirdPeak 1 1).1.mpr
      ⟨by decide, by decide, by decide, by decide⟩
  · exact (find_extrema_characterization twoSamples 1 0).2.2.2.1 (by decide)

/-! ## C2: indicator independence -/

/-- C2 counterexample: at 100 candles the RSI (period 14) has ample
history of its own, but because `sma_200` (and the rest) drag the shared
gate to 200 the source returns the frame untouched and the RSI snapshot
value is `None` — indicators are not computed independently. -/
theorem indicator_not_independent :
    latestIndicatorIsSome 100 IndicatorKey.rsi = false ∧
    requiredPeriod IndicatorKey.rsi ≤ 100 ∧
    100 < SMA_LONG_PERIOD := by decide

/-- C2 (amended): `calculate_technical_indicators` is all-or-nothing —
an indicator's latest value is non-`None` exactly when the series reaches
`max` of every configured period (200 candles), regardless of the
indicator's own requirement. -/
theorem indicator_all_or_nothing (n : ℕ) (k : IndicatorKey) :
    latestIndicatorIsSome n k = true ↔ minLenForIndicators ≤ n := by
  have hm : minLenForIndicators = 200 := rfl
  unfold latestIndicatorIsSome
  rcases Nat.lt_or_ge n minLenForIndicators with h | h
  · rw [if_pos h]
    simp only [Bool.false_eq_true, false_iff]
    omega
  · rw [if_neg (Nat.not_lt.mpr h)]
    simp only [decide_eq_true_eq]
    constructor
    · intro _; exact h
    · intro _
      have : requiredPeriod k ≤ 200 := by
        cases k <;> decide
      omega

/-! ## C5: preprocessing -/

/-- C5 counterexample: two well-formed rows arriving in descending
`open_time` order come back still in descending order (no sort), and a
single unparseable numeric field aborts the whole conversion instead of
dropping the row. -/
theorem preprocess_no_sort_no_drop :
    preprocessKlines [rawRowAt 2, rawRowAt 1] =
      .ok [rawToP (rawRowAt 2), rawToP (rawRowAt 1)] ∧
    (rawToP (rawRowAt 2)).openTime = 2 ∧
    (rawToP (rawRowAt 1)).openTime = 1 ∧
    ¬ ((2 : ℤ) ≤ 1) ∧
    preprocessKlines [rawRowAt 1, badRawRow] = .error () := by
  refine ⟨rfl, rfl, rfl, by decide, rfl⟩

/-- C5 (amended): `preprocess_klines_df` keeps the rows in their input
order (no sorting by `open_time`), and a row whose numeric fields fail to
parse makes the whole conversion fail — no row is dropped and no count is
reported. -/
theorem preprocess_order_and_abort (rows : List RawKline) :
    (∀ out, preprocessKlines rows = .ok out →
      out.map PKline.openTime = rows.map RawKline.openTime) ∧
    (preprocessKlines rows = .error () ↔ rows.all rawParses = false) := by
  unfold preprocessKlines
  by_cases h : rows.all rawParses
  · rw [if_pos h]
    constructor
    · intro out hout
      cases hout
      rw [List.map_map]
      rfl
    · simp [h]
  · rw [if_neg h]
    constructor
    · intro out hout; cases hout
    · simp only [Bool.not_eq_true] at h
      simp [h]

/-- C5 witness: the amended statement applied to the two concrete inputs
of the counterexample. -/
theorem preprocess_order_and_abort_witness :
    [rawToP (rawRowAt 2), rawToP (rawRowAt 1)].map PKline.openTime =
      [rawRowAt 2, rawRowAt 1].map RawKline.openTime ∧
    (preprocessKlines [rawRowAt 1, badRawRow] = .error () ↔
      [rawRowAt 1, badRawRow].all rawParses = false) := by
  exact ⟨(preprocess_order_and_abort [rawRowAt 2, rawRowAt 1]).1 _ rfl,
         (preprocess_order_and_abort [rawRowAt 1, badRawRow]).2⟩

/-! ## C3: divergence failure states -/

/-- C3: the three failure states of `calculate_rsi_divergence`, in the
guard order of the source — a missing RSI or close column gives
`DataMissing`; with both columns present, fewer than
`divergence_window + 2*peak_valley_window*lookback_pivots` rows give
`NotEnoughData`; past that guard, an all-NaN analysis window gives
`SeriesInvalid`; and the three failure labels are pairwise distinct and
distinct from the no-divergence label. -/
theorem divergence_failure_states (close rsiC : Series) (cl? : Option Series)
    (lp w dw : ℕ) (a : ℚ) :
    (calcRsiDivergence ⟨cl?, none⟩ lp w dw a = .DataMissing) ∧
    (calcRsiDivergence ⟨none, some rsiC⟩ lp w dw a = .DataMissing) ∧
    (close.length < divMinNeeded lp w dw →
      calcRsiDivergence ⟨some close, some rsiC⟩ lp w dw a = .NotEnoughData) ∧
    (¬ close.length < divMinNeeded lp w dw →
      (divSlice rsiC lp w dw).all (·.isNone) = true →
      (divSlice close lp w dw).all (·.isNone) = true →
      calcRsiDivergence ⟨some close, some rsiC⟩ lp w dw a = .SeriesInvalid) ∧
    (DivergenceLabel.DataMissing ≠ .NoDivergence ∧
     DivergenceLabel.NotEnoughData ≠ .NoDivergence ∧
     DivergenceLabel.SeriesInvalid ≠ .NoDivergence ∧
     DivergenceLabel.DataMissing ≠ .NotEnoughData ∧
     DivergenceLabel.DataMissing ≠ .SeriesInvalid ∧
     DivergenceLabel.NotEnoughData ≠ .SeriesInvalid) := by
  refine ⟨?_, ?_, ?_, ?_, by decide⟩
  · cases cl? <;> rfl
  · rfl
  · intro h
    unfold calcRsiDivergence
    dsimp only
    rw [if_pos h]
  · intro hlen hr hc
    unfold calcRsiDivergence
    dsimp only
    rw [if_neg hlen]
    simp only [hr, hc, Bool.or_self, if_pos]

/-- C3 witness: the failure states at concrete inputs — no RSI column, a
10-row frame against the default parameters (minimum 42), and a 42-row
all-NaN frame. -/
theorem divergence_failure_states_witness :
    calcRsiDivergence ⟨some shortTen, none⟩ 2 3 30 (1/200) = .DataMissing ∧
    calcRsiDivergence ⟨some shortTen, some shortTen⟩ 2 3 30 (1/200) =
      .NotEnoughData ∧
    calcRsiDivergence ⟨some allNone42, some allNone42⟩ 2 3 30 (1/200) =
      .SeriesInvalid := by
  refine ⟨(divergence_failure_states shortTen shortTen (some shortTen) 2 3 30 (1/200)).1,
    (divergence_failure_states shortTen shortTen none 2 3 30 (1/200)).2.2.1 (by decide),
    (divergence_failure_states allNone42 allNone42 none 2 3 30 (1/200)).2.2.2.1
      (by decide) (by decide) (by decide)⟩

/-! ## C7: Fibonacci levels -/

/-- C7 counterexample: on a frame shorter than the lookback the source
returns the all-`None` dictionary — the period high (5) and low (4) exist
in the data but are NOT still reported, contrary to the claim's
fails-soft description of the short case. -/
theorem fibonacci_short_input_reports_nothing :
    hlShort.high.length < 60 ∧
    omaxS hlShort.high = some 5 ∧
    ominS hlShort.low = some 4 ∧
    calculateFibonacciLevels hlShort 60 = ⟨none, none, none⟩ := by decide

/-- C7 (amended): below `lookback_period` rows everything (high, low and
levels) is `None`; at sufficient length with a defined degenerate range
(`high = low`) the high and low are reported with `levels = None`; and
with a non-degenerate range every level equals
`high - (high-low) * ratio/100` exactly (hence within any positive
tolerance), the `0.0%` entry being the high and the `100.0%` entry the
low. -/
theorem fibonacci_levels_exact (df : HLSeries) (lookback : ℕ) (h l : ℚ) :
    (df.high.length < lookback →
      calculateFibonacciLevels df lookback = ⟨none, none, none⟩) ∧
    (¬ df.high.length < lookback →
      omaxS (takeRight df.high lookback) = some h →
      ominS (takeRight df.low lookback) = some l →
      ((h = l →
        calculateFibonacciLevels df lookback = ⟨some h, some l, none⟩) ∧
       (h ≠ l →
        calculateFibonacciLevels df lookback =
          ⟨some h, some l, some
            [("0.0%", h - (h - l) * (0 / 100)),
             ("23.6%", h - (h - l) * ((236 / 10) / 100)),
             ("38.2%", h - (h - l) * ((382 / 10) / 100)),
             ("50.0%", h - (h - l) * (50 / 100)),
             ("61.8%", h - (h - l) * ((618 / 10) / 100)),
             ("78.6%", h - (h - l) * ((786 / 10) / 100)),
             ("100.0%", h - (h - l) * (100 / 100))]⟩))) := by
  constructor
  · intro hlt
    unfold calculateFibonacciLevels
    rw [if_pos hlt]
  · intro hge hmax hmin
    unfold calculateFibonacciLevels
    rw [if_neg hge, hmax, hmin]
    constructor
    · intro he
      dsimp only
      rw [if_pos he]
    · intro hne
      dsimp only
      rw [if_neg hne]
      simp only [FibResult.mk.injEq, Option.some.injEq, List.cons.injEq,
        Prod.mk.injEq]
      norm_num

/-- C7 witness: the exact levels over a two-candle frame with range 10
down to 2 and `lookback_period = 2`. -/
theorem fibonacci_levels_exact_witness :
    calculateFibonacciLevels hlDemo 2 =
      ⟨some 10, some 2, some
        [("0.0%", 10 - (10 - 2) * (0 / 100)),
         ("23.6%", 10 - (10 - 2) * ((236 / 10) / 100)),
         ("38.2%", 10 - (10 - 2) * ((382 / 10) / 100)),
         ("50.0%", 10 - (10 - 2) * (50 / 100)),
         ("61.8%", 10 - (10 - 2) * ((618 / 10) / 100)),
         ("78.6%", 10 - (10 - 2) * ((786 / 10) / 100)),
         ("100.0%", 10 - (10 - 2) * (100 / 100))]⟩ :=
  ((fibonacci_levels_exact hlDemo 2 10 2).2 (by decide) (by decide)
    (by decide)).2 (by norm_num)

/-! ## C8: cross-timeframe volume normalization -/

/-- The pre-normalization entry never carries a normalized volume. -/
theorem mkTFEntry_norm_none (vols : List ℚ) :
    (mkTFEntry vols).normalizedVolume = none := by
  unfold mkTFEntry
  split <;> rfl

/-- The 20-period MA of an entry is defined exactly on 20 candles of
history. -/
theorem mkTFEntry_ma20 (vols : List ℚ) :
    (20 ≤ vols.length →
      (mkTFEntry vols).volumeMa20 = some (listMeanQ (takeRight vols 20))) ∧
    (vols.length < 20 → (mkTFEntry vols).volumeMa20 = none) := by
  constructor
  · intro hv
    unfold mkTFEntry
    rw [if_neg (by omega)]
  · intro hv
    unfold mkTFEntry
    rw [if_pos hv]

/-- When the baseline MA of the last-listed timeframe exists, the
comparison is the per-timeframe record list with the normalization pass
applied throughout. -/
theorem compare_norm_eq (tfs : List (String × List ℚ))
    (hlen : 1 < tfs.length) (base : String × List ℚ)
    (hb : tfs.getLast? = some base) (b : ℚ)
    (hsome : (mkTFEntry base.2).volumeMa20 = some b) :
    compareVolumeAcrossTimeframes tfs true =
      tfs.map (fun p => (p.1, applyNorm b (mkTFEntry p.2))) := by
  unfold compareVolumeAcrossTimeframes
  dsimp only
  have hcond : (true && decide
      (1 < (tfs.map (fun p => (p.1, mkTFEntry p.2))).length)) = true := by
    simp only [Bool.true_and, List.length_map]
    exact decide_eq_true hlen
  rw [hcond, if_pos rfl]
  have hbaseLast : (tfs.map (fun p => (p.1, mkTFEntry p.2))).getLast? =
      some (base.1, mkTFEntry base.2) := by
    rw [List.getLast?_map, hb]
    rfl
  rw [hbaseLast]
  dsimp only
  rw [hsome]
  dsimp only
  rw [List.map_map]
  rfl

/-- C8: with more than one timeframe (distinct labels, as dict keys), a
timeframe's 20-period volume MA is defined exactly when it has 20
candles; when the longest (last-listed) timeframe's MA is unavailable
every `normalized_volume` is `None`; when it is available and positive
every timeframe is assigned its own MA divided by that baseline; and
identical volume profiles with a positive MA make every
`normalized_volume` equal to 1. -/
theorem cross_timeframe_normalization (tfs : List (String × List ℚ))
    (hlen : 1 < tfs.length) (hnodup : (tfs.map Prod.fst).Nodup) :
    (∀ vols : List ℚ,
      (20 ≤ vols.length →
        (mkTFEntry vols).volumeMa20 = some (listMeanQ (takeRight vols 20))) ∧
      (vols.length < 20 → (mkTFEntry vols).volumeMa20 = none)) ∧
    (∀ base, tfs.getLast? = some base →
      (mkTFEntry base.2).volumeMa20 = none →
      ∀ q ∈ compareVolumeAcrossTimeframes tfs true,
        q.2.normalizedVolume = none) ∧
    (∀ base b, tfs.getLast? = some base →
      (mkTFEntry base.2).volumeMa20 = some b → 0 < b →
      compareVolumeAcrossTimeframes tfs true =
        tfs.map (fun p => (p.1, applyNorm b (mkTFEntry p.2))) ∧
      ∀ e : TFEntry, (applyNorm b e).normalizedVolume =
        e.volumeMa20.map (fun m => m / b)) ∧
    (∀ vols : List ℚ, (∀ p ∈ tfs, p.2 = vols) → 20 ≤ vols.length →
      0 < listMeanQ (takeRight vols 20) →
      ∀ q ∈ compareVolumeAcrossTimeframes tfs true,
        q.2.normalizedVolume = some 1) := by
  have hnormed : ∀ b : ℚ, 0 < b → ∀ e : TFEntry,
      (applyNorm b e).normalizedVolume =
        e.volumeMa20.map (fun m => m / b) := by
    intro b hbpos e
    unfold applyNorm
    cases he : e.volumeMa20 with
    | none => rfl
    | some m =>
      dsimp only
      rw [if_pos hbpos]
      rfl
  refine ⟨mkTFEntry_ma20, ?_, ?_, ?_⟩
  · intro base hb hnone q hq
    unfold compareVolumeAcrossTimeframes at hq
    dsimp only at hq
    have hcond : (true && decide
        (1 < (tfs.map (fun p => (p.1, mkTFEntry p.2))).length)) = true := by
      simp only [Bool.true_and, List.length_map]
      exact decide_eq_true hlen
    have hbaseLast : (tfs.map (fun p => (p.1, mkTFEntry p.2))).getLast? =
        some (base.1, mkTFEntry base.2) := by
      rw [List.getLast?_map, hb]
      rfl
    rw [hcond, if_pos rfl, hbaseLast] at hq
    dsimp only at hq
    rw [hnone] at hq
    rcases List.mem_map.mp hq with ⟨p, -, hp⟩
    rw [← hp]
    exact mkTFEntry_norm_none p.2
  · intro base b hb hsome hbpos
    exact ⟨compare_norm_eq tfs hlen base hb b hsome, hnormed b hbpos⟩
  · intro vols hall hv hm q hq
    have hne : tfs ≠ [] := by
      intro hc
      rw [hc] at hlen
      exact absurd hlen (by decide)
    rcases Option.isSome_iff_exists.mp
      ((List.getLast?_isSome).mpr hne) with ⟨base, hb⟩
    have hbase2 : base.2 = vols :=
      hall base (List.mem_of_mem_getLast? hb)
    have hmab : (mkTFEntry base.2).volumeMa20 =
        some (listMeanQ (takeRight vols 20)) := by
      rw [hbase2]
      exact (mkTFEntry_ma20 vols).1 hv
    rw [compare_norm_eq tfs hlen base hb _ hmab] at hq
    rcases List.mem_map.mp hq with ⟨p, hpmem, hp⟩
    rw [← hp]
    dsimp only
    rw [hnormed _ hm (mkTFEntry p.2), hall p hpmem,
      (mkTFEntry_ma20 vols).1 hv]
    dsimp only [Option.map_some']
    rw [div_self (ne_of_gt hm)]

/-- C8 witness: two timeframes with identical unit-volume profiles both
normalize to 1. -/
theorem cross_timeframe_normalization_witness :
    (compareVolumeAcrossTimeframes demoTfs true).all
      (fun q => decide (q.2.normalizedVolume = some 1)) = true := by
  apply List.all_eq_true.mpr
  intro q hq
  exact decide_eq_true
    ((cross_timeframe_normalization demoTfs (by decide) (by decide)).2.2.2
      unitVols (by decide) (by decide)
      (by with_unfolding_all decide) q hq)

/-! ## C9: the tolerance pre-filter is redundant on positive data -/

/-- A defined sample of a positive-valued series is positive. -/
theorem sget_pos {s : Series} (hs : ∀ x ∈ s, 0 < x.getD 1)
    {i : ℕ} {v : ℚ} (h : sget s i = some v) : 0 < v := by
  have := hs _ (sget_mem h)
  simpa using this

/-- Positivity carries over to the analysis slice. -/
theorem slice_pos {s : Series} (hs : ∀ x ∈ s, 0 < x.getD 1)
    (lp w dw : ℕ) : ∀ x ∈ divSlice s lp w dw, 0 < x.getD 1 :=
  fun x hx => hs x (mem_divSlice hx)

/-- On positive pivot values and a non-negative tolerance the two-stage
bearish test agrees pointwise with the strict-only test. -/
theorem negPair_eq_simple (price rsiS : Series) (ppeaks rpeaks : List ℕ)
    (alen dw lp : ℕ) (a : ℚ) (ha : 0 ≤ a)
    (hp : ∀ x ∈ price, 0 < x.getD 1) (hr : ∀ x ∈ rsiS, 0 < x.getD 1)
    (i : ℕ) :
    negPairQualifies price rsiS ppeaks rpeaks alen dw lp a i =
      negPairQualifiesSimple price rsiS ppeaks rpeaks alen dw lp i := by
  have hcomp : ∀ ph1 ph2 rh1 rh2 : ℚ, 0 < ph1 → 0 < rh1 →
      (decide (ph1 * (1 - a) < ph2) && decide (rh2 < rh1 * (1 + a)) &&
       decide (ph1 < ph2) && decide (rh2 < rh1)) =
      (decide (ph1 < ph2) && decide (rh2 < rh1)) := by
    intro ph1 ph2 rh1 rh2 h1 h2
    by_cases hs1 : ph1 < ph2 <;> by_cases hs2 : rh2 < rh1 <;>
      simp [hs1, hs2]
    constructor
    · nlinarith [mul_nonneg h1.le ha]
    · nlinarith [mul_nonneg h2.le ha]
  unfold negPairQualifies negPairQualifiesSimple
  cases ppeaks.get? i with
  | none => rfl
  | some p2 =>
    cases ppeaks.get? (i - (lp - 1)) with
    | none => rfl
    | some p1 =>
      dsimp only
      split
      · rfl
      · cases rsiMatchBefore rpeaks p2 with
        | none => rfl
        | some r2 =>
          dsimp only
          cases rsiMatchBeforeLt rpeaks p1 r2 with
          | none => rfl
          | some r1 =>
            dsimp only
            split
            · cases e1 : sget price p1 with
              | none => rfl
              | some ph1 =>
                cases e2 : sget price p2 with
                | none => rfl
                | some ph2 =>
                  cases e3 : sget rsiS r1 with
                  | none => rfl
                  | some rh1 =>
                    cases e4 : sget rsiS r2 with
                    | none => rfl
                    | some rh2 =>
                      dsimp only
                      exact hcomp ph1 ph2 rh1 rh2
                        (sget_pos hp e1) (sget_pos hr e3)
            · rfl

/-- On positive pivot values and a non-negative tolerance the two-stage
bullish test agrees pointwise with the strict-only test. -/
theorem posPair_eq_simple (price rsiS : Series) (pvalleys rvalleys : List ℕ)
    (alen dw lp : ℕ) (a : ℚ) (ha : 0 ≤ a)
    (hp : ∀ x ∈ price, 0 < x.getD 1) (hr : ∀ x ∈ rsiS, 0 < x.getD 1)
    (i : ℕ) :
    posPairQualifies price rsiS pvalleys rvalleys alen dw lp a i =
      posPairQualifiesSimple price rsiS pvalleys rvalleys alen dw lp i := by
  have hcomp : ∀ pl1 pl2 rl1 rl2 : ℚ, 0 < pl1 → 0 < rl1 →
      (decide (pl2 < pl1 * (1 + a)) && decide (rl1 * (1 - a) < rl2) &&
       decide (pl2 < pl1) && decide (rl1 < rl2)) =
      (decide (pl2 < pl1) && decide (rl1 < rl2)) := by
    intro pl1 pl2 rl1 rl2 h1 h2
    by_cases hs1 : pl2 < pl1 <;> by_cases hs2 : rl1 < rl2 <;>
      simp [hs1, hs2]
    constructor
    · nlinarith [mul_nonneg h1.le ha]
    · nlinarith [mul_nonneg h2.le ha]
  unfold posPairQualifies posPairQualifiesSimple
  cases pvalleys.get? i with
  | none => rfl
  | some p2 =>
    cases pvalleys.get? (i - (lp - 1)) with
    | none => rfl
    | some p1 =>
      dsimp only
      split
      · rfl
      · cases rsiMatchBefore rvalleys p2 with
        | none => rfl
        | some r2 =>
          dsimp only
          cases rsiMatchBeforeLt rvalleys p1 r2 with
          | none => rfl
          | some r1 =>
            dsimp only
            split
            · cases e1 : sget price p1 with
              | none => rfl
              | some pl1 =>
                cases e2 : sget price p2 with
                | none => rfl
                | some pl2 =>
                  cases e3 : sget rsiS r1 with
                  | none => rfl
                  | some rl1 =>
                    cases e4 : sget rsiS r2 with
                    | none => rfl
                    | some rl2 =>
                      dsimp only
                      exact hcomp pl1 pl2 rl1 rl2
                        (sget_pos hp e1) (sget_pos hr e3)
            · rfl

/-- The bearish hit flags of the full and simplified analyzers agree on
positive data. -/
theorem divNegHit_eq_simple (close rsiC : Series) (lp w dw : ℕ) (a : ℚ)
    (ha : 0 ≤ a) (hc : ∀ x ∈ close, 0 < x.getD 1)
    (hr : ∀ x ∈ rsiC, 0 < x.getD 1) :
    divNegHit close rsiC lp w dw a = divNegHitSimple close rsiC lp w dw := by
  unfold divNegHit divNegHitSimple
  dsimp only
  rw [list_any_congr (fun i _ =>
    negPair_eq_simple (divSlice close lp w dw) (divSlice rsiC lp w dw)
      (findPeaksValleys (divSlice close lp w dw) w).1
      (findPeaksValleys (divSlice rsiC lp w dw) w).1
      (divSlice close lp w dw).length dw lp a ha
      (slice_pos hc lp w dw) (slice_pos hr lp w dw) i)]

/-- The bullish hit flags of the full and simplified analyzers agree on
positive data. -/
theorem divPosHit_eq_simple (close rsiC : Series) (lp w dw : ℕ) (a : ℚ)
    (ha : 0 ≤ a) (hc : ∀ x ∈ close, 0 < x.getD 1)
    (hr : ∀ x ∈ rsiC, 0 < x.getD 1) :
    divPosHit close rsiC lp w dw a = divPosHitSimple close rsiC lp w dw := by
  unfold divPosHit divPosHitSimple
  dsimp only
  rw [list_any_congr (fun i _ =>
    posPair_eq_simple (divSlice close lp w dw) (divSlice rsiC lp w dw)
      (findPeaksValleys (divSlice close lp w dw) w).2
      (findPeaksValleys (divSlice rsiC lp w dw) w).2
      (divSlice close lp w dw).length dw lp a ha
      (slice_pos hc lp w dw) (slice_pos hr lp w dw) i)]

/-- C9: on series whose defined samples are all strictly positive and
with a non-negative tolerance, the analyzer with its two-stage test
returns exactly what the strict-comparison-only variant returns. -/
theorem tolerance_prefilter_redundant (close rsiC : Series)
    (lp w dw : ℕ) (a : ℚ) (ha : 0 ≤ a)
    (hc : ∀ x ∈ close, 0 < x.getD 1) (hr : ∀ x ∈ rsiC, 0 < x.getD 1) :
    calcRsiDivergence ⟨some close, some rsiC⟩ lp w dw a =
      calcRsiDivergenceSimple ⟨some close, some rsiC⟩ lp w dw := by
  unfold calcRsiDivergence calcRsiDivergenceSimple
  dsimp only
  rw [divNegHit_eq_simple close rsiC lp w dw a ha hc hr,
      divPosHit_eq_simple close rsiC lp w dw a ha hc hr]

/-- C9 witness: the equality at the synthetic bearish input with the
default tolerance 0.005. -/
theorem tolerance_prefilter_redundant_witness :
    calcRsiDivergence ⟨some synNegClose, some synNegRsi⟩ 2 3 30 (1/200) =
      calcRsiDivergenceSimple ⟨some synNegClose, some synNegRsi⟩ 2 3 30 :=
  tolerance_prefilter_redundant synNegClose synNegRsi 2 3 30 (1/200)
    (by norm_num) (by decide) (by decide)

/-! ## C1: the divergence scan -/

/-- C1 counterexample: on `sharedMatchClose`/`sharedMatchRsi` the
nearest RSI peak at or before EITHER price peak is the same peak (index
10), so under the claim's matching rule no candidate pair satisfies
`rsi_high_2 < rsi_high_1` — yet the source returns `Negative`, because
its second match carries the extra requirement of being strictly before
the first, which silently reaches back to the peak at index 4. -/
theorem rsi_divergence_shared_match_mismatch :
    calcRsiDivergence ⟨some sharedMatchClose, some sharedMatchRsi⟩
      2 3 30 (1/200) = .Negative ∧
    specNegHit sharedMatchClose sharedMatchRsi 2 3 30 = false :=
  ⟨by with_unfolding_all decide, by decide⟩

/-- C1 (amended): past the guards, the analyzer returns `Negative`
exactly when the bearish scan fires — both pivot lists holding at least
`lookback_pivots` peaks and some scanned pair passing the recency bound,
the nearest-before matching (the earlier match strictly before the later
one), the tolerance pre-filter and the strict comparison — and `Positive`
exactly when the bearish scan fails and the mirrored bullish scan fires;
the synthetic rising-peak case 100→110 against RSI 70→60 is `Negative`
and its mirror is `Positive`. -/
theorem rsi_divergence_scan_characterization (close rsiC : Series)
    (lp w dw : ℕ) (a : ℚ)
    (hlen : ¬ close.length < divMinNeeded lp w dw)
    (hvalid : ((divSlice rsiC lp w dw).all (·.isNone) ||
               (divSlice close lp w dw).all (·.isNone)) = false) :
    (calcRsiDivergence ⟨some close, some rsiC⟩ lp w dw a = .Negative ↔
      divNegHit close rsiC lp w dw a = true) ∧
    (divNegHit close rsiC lp w dw a = true ↔
      (lp ≤ (findPeaksValleys (divSlice close lp w dw) w).1.length ∧
       lp ≤ (findPeaksValleys (divSlice rsiC lp w dw) w).1.length ∧
       ∃ i ∈ scanIdxs lp (findPeaksValleys (divSlice close lp w dw) w).1.length,
         negPairQualifies (divSlice close lp w dw) (divSlice rsiC lp w dw)
           (findPeaksValleys (divSlice close lp w dw) w).1
           (findPeaksValleys (divSlice rsiC lp w dw) w).1
           (divSlice close lp w dw).length dw lp a i = true)) ∧
    (calcRsiDivergence ⟨some close, some rsiC⟩ lp w dw a = .Positive ↔
      (divNegHit close rsiC lp w dw a = false ∧
       divPosHit close rsiC lp w dw a = true)) ∧
    (divPosHit close rsiC lp w dw a = true ↔
      (lp ≤ (findPeaksValleys (divSlice close lp w dw) w).2.length ∧
       lp ≤ (findPeaksValleys (divSlice rsiC lp w dw) w).2.length ∧
       ∃ i ∈ scanIdxs lp (findPeaksValleys (divSlice close lp w dw) w).2.length,
         posPairQualifies (divSlice close lp w dw) (divSlice rsiC lp w dw)
           (findPeaksValleys (divSlice close lp w dw) w).2
           (findPeaksValleys (divSlice rsiC lp w dw) w).2
           (divSlice close lp w dw).length dw lp a i = true)) ∧
    calcRsiDivergence ⟨some synNegClose, some synNegRsi⟩ 2 3 30 (1/200) =
      .Negative ∧
    calcRsiDivergence ⟨some synPosClose, some synPosRsi⟩ 2 3 30 (1/200) =
      .Positive := by
  have hcore : calcRsiDivergence ⟨some close, some rsiC⟩ lp w dw a =
      (if divNegHit close rsiC lp w dw a then .Negative
       else if divPosHit close rsiC lp w dw a then .Positive
       else .NoDivergence) := by
    unfold calcRsiDivergence
    dsimp only
    rw [if_neg hlen, hvalid]
    simp
  refine ⟨?_, ?_, ?_, ?_, by with_unfolding_all decide,
    by with_unfolding_all decide⟩
  · rw [hcore]
    cases hn : divNegHit close rsiC lp w dw a with
    | true => simp
    | false =>
      cases hp : divPosHit close rsiC lp w dw a <;> simp
  · unfold divNegHit
    dsimp only
    simp only [Bool.and_eq_true, decide_eq_true_eq, List.any_eq_true]
    exact and_assoc
  · rw [hcore]
    cases hn : divNegHit close rsiC lp w dw a with
    | true => simp
    | false =>
      cases hp : divPosHit close rsiC lp w dw a <;> simp
  · unfold divPosHit
    dsimp only
    simp only [Bool.and_eq_true, decide_eq_true_eq, List.any_eq_true]
    exact and_assoc

/-- C1 witness: the characterization applied at the synthetic inputs,
whose guards are discharged concretely. -/
theorem rsi_divergence_scan_characterization_witness :
    calcRsiDivergence ⟨some synNegClose, some synNegRsi⟩ 2 3 30 (1/200) =
      .Negative ∧
    calcRsiDivergence ⟨some synPosClose, some synPosRsi⟩ 2 3 30 (1/200) =
      .Positive := by
  have h := rsi_divergence_scan_characterization synNegClose synNegRsi
    2 3 30 (1/200) (by decide) (by decide)
  exact ⟨h.2.2.2.2.1, h.2.2.2.2.2⟩

/-! ## C10: bearish precedence -/

/-- C10: whenever, past the guards, both the bearish scan and the
bullish scan would fire, the analyzer returns `Negative`: every
candidate peak pair is examined before any valley pair, so a bearish
divergence wins regardless of which qualifying pair is the more
recent. -/
theorem bearish_scan_precedence (close rsiC : Series) (lp w dw : ℕ)
    (a : ℚ)
    (hlen : ¬ close.length < divMinNeeded lp w dw)
    (hvalid : ((divSlice rsiC lp w dw).all (·.isNone) ||
               (divSlice close lp w dw).all (·.isNone)) = false)
    (hneg : divNegHit close rsiC lp w dw a = true)
    (hpos : divPosHit close rsiC lp w dw a = true) :
    calcRsiDivergence ⟨some close, some rsiC⟩ lp w dw a = .Negative := by
  unfold calcRsiDivergence
  dsimp only
  rw [if_neg hlen, hvalid, hneg]
  simp

/-- C10 witness: on `dualSigClose`/`dualSigRsi` both scans fire (the
qualifying valley pair being the more recent) and the result is
`Negative`. -/
theorem bearish_scan_precedence_witness :
    calcRsiDivergence ⟨some dualSigClose, some dualSigRsi⟩ 2 3 30 (1/200) =
      .Negative :=
  bearish_scan_precedence dualSigClose dualSigRsi 2 3 30 (1/200)
    (by decide) (by decide)
    (by with_unfolding_all decide) (by with_unfolding_all decide)

/-! ## C6: volume anomaly detection -/

/-- Baseline of the near-threshold input. -/
theorem near_baseline : baselineWindow nearVols 3 = [1, 1, 1] := rfl

/-- Its baseline mean. -/
theorem near_mean : volBaselineMean nearVols 3 = 1 := by
  simp only [volBaselineMean, near_baseline, listMeanR]
  norm_num

/-- Its floored standard deviation. -/
theorem near_std : volBaselineStd nearVols 3 = 1 / 1000000 := by
  simp only [volBaselineStd, near_baseline]
  have hv : sampleVarR [(1:ℝ), 1, 1] = 0 := by
    simp only [sampleVarR, listMeanR]
    norm_num
  rw [hv, Real.sqrt_zero, if_pos rfl]

/-- Its z-score. -/
theorem near_z : volZScore nearVols 3 = 1 := by
  rw [volZScore, near_mean, near_std,
    show volCurrent nearVols = 1 + 1 / 1000000 from rfl]
  norm_num

/-- Baseline of the spike input. -/
theorem spike_baseline :
    baselineWindow spikeVols 9 = [0, 4, 2, 2, 2, 2, 2, 2, 2] := rfl

/-- Its baseline mean. -/
theorem spike_mean : volBaselineMean spikeVols 9 = 2 := by
  simp only [volBaselineMean, spike_baseline, listMeanR]
  norm_num

/-- Its standard deviation. -/
theorem spike_std : volBaselineStd spikeVols 9 = 1 := by
  simp only [volBaselineStd, spike_baseline]
  have hv : sampleVarR [(0:ℝ), 4, 2, 2, 2, 2, 2, 2, 2] = 1 := by
    simp only [sampleVarR, listMeanR]
    norm_num
  rw [hv, Real.sqrt_one, if_neg (by norm_num)]

/-- Its z-score: five standard deviations. -/
theorem spike_z : volZScore spikeVols 9 = 5 := by
  rw [volZScore, spike_mean, spike_std,
    show volCurrent spikeVols = 7 from rfl]
  norm_num

/-- Dropping the last element commutes with dropping a prefix. -/
theorem dropLast_drop_comm (l : List ℝ) (n : ℕ) :
    (l.drop n).dropLast = l.dropLast.drop n := by
  rw [List.dropLast_eq_take, List.dropLast_eq_take, List.drop_take,
    List.length_drop]
  congr 1
  omega

/-- Full record of the spike input: detected, spike, z-score 5. -/
theorem detect_spikeVols_eq :
    detectVolumeAnomalies spikeVols 9 2 =
      some ⟨true, .spike, 7, 2, 1, 5, 250, 1⟩ := by
  unfold detectVolumeAnomalies
  rw [if_neg (by simp [spikeVols])]
  dsimp only
  rw [spike_z, show volCurrent spikeVols = 7 from rfl]
  simp only [spike_mean, spike_std]
  rw [show takeRight spikeVols 5 = [2, 2, 2, 2, 7] from rfl]
  have hd : (|(5:ℝ)| > 2) := by norm_num
  rw [if_pos hd]
  norm_num [List.filter, Option.some.injEq, VolumeAnomalyResult.mk.injEq]

/-- Baseline of the drop input. -/
theorem drop_baseline :
    baselineWindow dropVols 9 = [1, 5, 3, 3, 3, 3, 3, 3, 3] := rfl

/-- Its baseline mean. -/
theorem drop_mean : volBaselineMean dropVols 9 = 3 := by
  simp only [volBaselineMean, drop_baseline, listMeanR]
  norm_num

/-- Its standard deviation. -/
theorem drop_std : volBaselineStd dropVols 9 = 1 := by
  simp only [volBaselineStd, drop_baseline]
  have hv : sampleVarR [(1:ℝ), 5, 3, 3, 3, 3, 3, 3, 3] = 1 := by
    simp only [sampleVarR, listMeanR]
    norm_num
  rw [hv, Real.sqrt_one, if_neg (by norm_num)]

/-- Its z-score: three standard deviations below. -/
theorem drop_z : volZScore dropVols 9 = -3 := by
  rw [volZScore, drop_mean, drop_std,
    show volCurrent dropVols = 0 from rfl]
  norm_num

/-- The zero-clamped drop input is detected as a drop. -/
theorem detect_dropVols_kind :
    (detectVolumeAnomalies dropVols 9 2).map
      (fun q => (q.anomalyDetected, q.anomalyType)) = some (true, .drop) := by
  unfold detectVolumeAnomalies
  rw [if_neg (by simp [dropVols])]
  simp only [Option.map_some']
  rw [drop_z]
  have hd : (|(-3:ℝ)| > 2) := by norm_num
  rw [if_pos hd]
  norm_num

/-- C6 counterexample: the current candle of `nearVols` sits at z = 1
above its baseline, strictly positive, yet — the anomaly not reaching the
threshold — the source reports `kind = none`, not `Spike`: the kind is
gated by detection, contrary to the claim's unconditional
"Spike when z > 0". -/
theorem volume_anomaly_kind_gated :
    (detectVolumeAnomalies nearVols 3 2).map
      (fun q => (q.anomalyDetected, q.anomalyType, q.zScore)) =
      some (false, .noAnomaly, 1) ∧ (0:ℝ) < 1 := by
  refine ⟨?_, by norm_num⟩
  unfold detectVolumeAnomalies
  rw [if_neg (by simp [nearVols])]
  simp only [Option.map_some']
  rw [near_z]
  have hd : ¬ (|(1:ℝ)| > 2) := by norm_num
  rw [if_neg hd]
  norm_num

/-- C6 (amended): on sufficient data (at least `lookback + 1` candles,
`lookback ≥ 2`) the baseline window is exactly the `lookback` candles
preceding the current one; the z-score is the current volume minus the
baseline mean over the (epsilon-floored) baseline deviation; an anomaly
is flagged exactly when `|z|` exceeds the threshold; the kind is `Spike`
for a detected positive z, `Drop` for a detected negative z and `None`
when nothing is detected; the deviation percentage is
`(current/mean - 1)*100`; and the synthetic mean+5·std candle is a
detected `Spike` while the clamped-to-zero mean−5·std candle (baseline
mean 3, std 1) is a detected `Drop`. -/
theorem volume_anomaly_fields (vols : List ℝ) (L : ℕ) (t : ℝ)
    (r : VolumeAnomalyResult) (hL : 2 ≤ L) (hlen : L + 1 ≤ vols.length)
    (hdet : detectVolumeAnomalies vols L t = some r) :
    (baselineWindow vols L).length = L ∧
    baselineWindow vols L = takeRight vols.dropLast L ∧
    r.currentVolume = volCurrent vols ∧
    r.baselineMean = listMeanR (baselineWindow vols L) ∧
    r.zScore = (r.currentVolume - r.baselineMean) / r.baselineStd ∧
    (r.anomalyDetected = true ↔ |r.zScore| > t) ∧
    (r.anomalyDetected = true → 0 < r.zScore → r.anomalyType = .spike) ∧
    (r.anomalyDetected = true → r.zScore < 0 → r.anomalyType = .drop) ∧
    (r.anomalyDetected = false → r.anomalyType = .noAnomaly) ∧
    r.deviationPercent = (r.currentVolume / r.baselineMean - 1) * 100 ∧
    (detectVolumeAnomalies spikeVols 9 2).map
      (fun q => (q.anomalyDetected, q.anomalyType)) = some (true, .spike) ∧
    (detectVolumeAnomalies dropVols 9 2).map
      (fun q => (q.anomalyDetected, q.anomalyType)) = some (true, .drop) := by
  unfold detectVolumeAnomalies at hdet
  rw [if_neg (by omega)] at hdet
  dsimp only at hdet
  rw [Option.some.injEq] at hdet
  subst hdet
  refine ⟨?_, ?_, rfl, rfl, rfl, ?_, ?_, ?_, ?_, rfl, ?_, ?_⟩
  · simp only [baselineWindow, takeRight, List.length_dropLast,
      List.length_drop]
    omega
  · unfold baselineWindow takeRight
    rw [dropLast_drop_comm]
    congr 1
    rw [List.length_dropLast]
    omega
  · dsimp only
    by_cases h : |volZScore vols L| > t
    · rw [if_pos h]
      simp [h]
    · rw [if_neg h]
      simp [h]
  · dsimp only
    intro h1 h2
    by_cases h : |volZScore vols L| > t
    · rw [if_pos h]
      simp [h2]
    · rw [if_neg h] at h1
      exact absurd h1 (by simp)
  · dsimp only
    intro h1 h2
    by_cases h : |volZScore vols L| > t
    · rw [if_pos h]
      simp [not_lt.mpr h2.le]
    · rw [if_neg h] at h1
      exact absurd h1 (by simp)
  · dsimp only
    intro h1
    by_cases h : |volZScore vols L| > t
    · rw [if_pos h] at h1
      exact absurd h1 (by simp)
    · rw [if_neg h]
      simp
  · exact detect_spikeVols_eq ▸ rfl
  · exact detect_dropVols_kind

/-- C6 witness: the field characterization applied at the concrete
spike input, whose detection record is fully evaluated. -/
theorem volume_anomaly_fields_witness :
    (baselineWindow spikeVols 9).length = 9 ∧
    (true = true ↔ |(5:ℝ)| > 2) := by
  have h := volume_anomaly_fields spikeVols 9 2
    ⟨true, .spike, 7, 2, 1, 5, 250, 1⟩ (by norm_num)
    (by simp [spikeVols]) detect_spikeVols_eq
  exact ⟨h.1, h.2.2.2.2.2.1⟩
